import Mathlib

/-!
Verification of the `gs` package (Google Storage convenience helpers).

The definitions below are a shallow embedding of `gs.go`, translated
function by function.  The remote object store, the gzip codec and the
backoff library are external collaborators; they are modelled by their
documented contracts (atomic compose with a generation precondition,
lossless compression, exponential backoff with a maximum elapsed time)
and every such model is marked in its doc comment.  Machine strings are
Lean `String`s manipulated through their underlying character lists so
that all definitions evaluate by kernel reduction; bytes are `Nat`s.
-/

/-! ### Character-list string helpers (ports of the Go standard library calls used) -/

/-- Turn a character list back into a string. -/
def chStr (l : List Char) : String := String.mk l

/-- Does `s` start with `p`?  Port of the check done by `strings.TrimPrefix`. -/
def charsHasPfx : List Char → List Char → Bool
  | [], _ => true
  | _ :: _, [] => false
  | p :: ps, s :: ss => p = s && charsHasPfx ps ss

/-- `strings.TrimPrefix`: drop `p` from the front of `s` when present. -/
def trimPfxChars (p s : List Char) : List Char :=
  if charsHasPfx p s then s.drop p.length else s

/-- `strings.Split` for a one-character separator (the source always splits
on `"/"`).  Returns the (possibly empty) substrings between separators. -/
def splitChar (c : Char) : List Char → List (List Char)
  | [] => [[]]
  | a :: rest =>
    match splitChar c rest with
    | [] => [[]]
    | g :: gs => if a = c then [] :: g :: gs else (a :: g) :: gs

/-- Join character lists with a one-character separator. -/
def joinCharsSep (c : Char) : List (List Char) → List Char
  | [] => []
  | [g] => g
  | g :: rest => g ++ c :: joinCharsSep c rest

/-- One pass of the element processing of Go `path.Clean`:  `acc` is the
stack of kept components (reversed), `rooted` says whether the path began
with a slash. -/
def cleanComponents (rooted : Bool) : List (List Char) → List (List Char) → List (List Char)
  | acc, [] => acc.reverse
  | acc, comp :: rest =>
    if comp = [] ∨ comp = ['.'] then cleanComponents rooted acc rest
    else if comp = ['.', '.'] then
      match acc with
      | top :: accRest =>
        if top = ['.', '.'] then cleanComponents rooted (comp :: top :: accRest) rest
        else cleanComponents rooted accRest rest
      | [] => if rooted then cleanComponents rooted [] rest else cleanComponents rooted [comp] rest
    else cleanComponents rooted (comp :: acc) rest

/-- Port of Go `path.Clean` (equal to `filepath.Clean` on slash-separated
systems): collapse repeated slashes, drop `.` elements, resolve `..`. -/
def pathClean (p : List Char) : List Char :=
  if p = [] then ['.']
  else
    let rooted := p.head? = some '/'
    let comps := cleanComponents rooted [] (splitChar '/' p)
    let out := joinCharsSep '/' comps
    if rooted then '/' :: out
    else if out = [] then ['.']
    else out

/-- Port of Go `filepath.Join`: join the non-empty elements with `/` and
clean the result; all-empty input yields the empty string. -/
def goJoin (elems : List String) : String :=
  let nonEmpty := (elems.map String.data).filter (fun l => l ≠ [])
  if nonEmpty = [] then "" else chStr (pathClean (joinCharsSep '/' nonEmpty))

/-- Decimal digit character. -/
def digitCh (n : Nat) : Char :=
  if n = 0 then '0' else if n = 1 then '1' else if n = 2 then '2'
  else if n = 3 then '3' else if n = 4 then '4' else if n = 5 then '5'
  else if n = 6 then '6' else if n = 7 then '7' else if n = 8 then '8' else '9'

/-- Fuel-driven digit expansion of a natural number (most significant first). -/
def natDigitsAux : Nat → Nat → List Char
  | 0, _ => []
  | fuel + 1, n => if n = 0 then [] else natDigitsAux fuel (n / 10) ++ [digitCh (n % 10)]

/-- Decimal rendering of a natural number, as `fmt.Sprintf` with verb `d` does. -/
def natToStr (n : Nat) : String :=
  if n = 0 then "0" else chStr (natDigitsAux (n + 1) n)

/-! ### `BucketPrefixObject` (gs.go lines 212-227) -/

/-- `BucketPrefixObject` decomposes a `gs://bucket/pfx.../name` locator into
its bucket, object-name prefix and object name, erroring when fewer than two
slash-separated segments follow the scheme. -/
def BucketPrefixObject (url : String) : Except String (String × String × String) :=
  let path := trimPfxChars "gs://".data url.data
  let c := (splitChar '/' path).map chStr
  if c.length < 2 then .error "path does not have bucket and object"
  else
    let bkt := c.getD 0 ""
    let obj := c.getLastD ""
    let pfx := if c.length > 2 then goJoin ((c.drop 1).dropLast) else ""
    .ok (bkt, pfx, obj)

/-- C9: `BucketPrefixObject` maps the three documented locator shapes to
(bucket, prefix, name) as the spec states, and every locator whose path
splits into fewer than two slash-separated segments yields an error. -/
theorem BucketPrefixObject_spec :
    BucketPrefixObject "gs://bkt/name" = .ok ("bkt", "", "name")
    ∧ BucketPrefixObject "gs://bkt/pf/name" = .ok ("bkt", "pf", "name")
    ∧ BucketPrefixObject "gs://bkt/pf1/pf2/name" = .ok ("bkt", "pf1/pf2", "name")
    ∧ ∀ url : String,
        (splitChar '/' (trimPfxChars "gs://".data url.data)).length < 2 →
        BucketPrefixObject url = .error "path does not have bucket and object" := by
  refine ⟨by rfl, by rfl, by rfl, ?_⟩
  intro url h
  have hlen : ((splitChar '/' (trimPfxChars "gs://".data url.data)).map chStr).length < 2 := by
    simpa using h
  simp only [BucketPrefixObject, if_pos hlen]

/-- Witness for C9 at the concrete bucket-only locator `gs://bkt`. -/
theorem BucketPrefixObject_spec_witness :
    BucketPrefixObject "gs://bkt" = .error "path does not have bucket and object" :=
  BucketPrefixObject_spec.2.2.2 "gs://bkt" (by decide)

/-! ### Object store model (external collaborator) -/

/-- Attributes and content of one stored object: its byte content, its
generation stamp and its content-encoding metadata. -/
structure ObjState where
  content : List Nat
  generation : Nat
  contentEncoding : String
deriving DecidableEq, Repr

/-- The store: an association list of named objects plus the next fresh
generation stamp. -/
structure GCS where
  objs : List (String × ObjState)
  nextGen : Nat
deriving DecidableEq, Repr

def GCS.lookupObj (s : GCS) (name : String) : Option ObjState :=
  (s.objs.find? (fun p => p.1 = name)).map Prod.snd

def GCS.setObj (s : GCS) (name : String) (st : ObjState) : GCS :=
  { objs := s.objs.filter (fun p => p.1 ≠ name) ++ [(name, st)], nextGen := s.nextGen }

def GCS.removeObj (s : GCS) (name : String) : GCS :=
  { objs := s.objs.filter (fun p => p.1 ≠ name), nextGen := s.nextGen }

/-- Store write (`NewWriter`/`Write`/`Close`): replace the object's content
under a fresh generation.  The source never sets ContentEncoding on a
writer, so a written object's content-encoding is always empty. -/
def GCS.writeObj (s : GCS) (name : String) (content : List Nat) : GCS :=
  { objs := (s.setObj name ⟨content, s.nextGen, ""⟩).objs, nextGen := s.nextGen + 1 }

/-- The store errors the source distinguishes: `storage.ErrObjectNotExist`,
the generation-precondition failure, and any other transport error. -/
inductive StoreErr
  | objectNotExist
  | precondFailed
  | transport (msg : String)
deriving DecidableEq, Repr

/-- The four store calls made by the `compose` closure. -/
inductive CallSite
  | attrsDest
  | attrsTmp
  | runCompose
  | deleteTmp
deriving DecidableEq, Repr

/-- Fault injection for the store calls of one `compose` run: `fails c` is
the error the call at `c` returns, `none` meaning the call succeeds. -/
structure Faults where
  fails : CallSite → Option StoreErr

def noFaults : Faults := ⟨fun _ => none⟩

/-- Contents of the named source objects, in order; `none` when one of
them does not exist. -/
def GCS.sourceContents (s : GCS) : List String → Option (List (List Nat))
  | [] => some []
  | n :: rest => do
    let c ← (s.lookupObj n).map ObjState.content
    let cs ← s.sourceContents rest
    pure (c :: cs)

/-- Modelled store collaborator primitive: atomically replace `dest` with
the concatenation of the sources' contents in the order given, provided the
destination's generation still equals `expectedGen`; the result carries the
content-encoding supplied by the composer. -/
def GCS.composeIfGenMatch (s : GCS) (dest : String) (srcs : List String)
    (expectedGen : Nat) (enc : String) : Except StoreErr GCS :=
  match s.lookupObj dest with
  | none => .error .objectNotExist
  | some cur =>
    if cur.generation ≠ expectedGen then .error .precondFailed
    else
      match s.sourceContents srcs with
      | none => .error .objectNotExist
      | some contents =>
        .ok (GCS.mk (s.setObj dest ⟨contents.flatten, s.nextGen, enc⟩).objs (s.nextGen + 1))

/-- Result of one run of the `compose` closure, tagged the way the backoff
library sees it: `permanentErr` is a `backoff.Permanent` error (never
retried), `transientErr` a plain error (retried while budget remains).
Each result carries the store state after the run. -/
inductive ComposeResult
  | ok (s : GCS)
  | permanentErr (e : StoreErr) (s : GCS)
  | transientErr (e : StoreErr) (s : GCS)
deriving DecidableEq, Repr

/-- `compose` (gs.go 139-162): read the destination's attributes, read the
temporary's attributes, run a composer built as
`obj.If(GenerationMatch).ComposerFrom(pobj, obj)` whose ContentEncoding is
the temporary's, then delete the temporary.  Attribute and delete failures
are wrapped in `backoff.Permanent`; a failure of `composer.Run` is returned
unwrapped. -/
def compose (s : GCS) (destName tmpName : String) (f : Faults) : ComposeResult :=
  match f.fails .attrsDest with
  | some e => .permanentErr e s
  | none =>
  match s.lookupObj destName with
  | none => .permanentErr .objectNotExist s
  | some attr =>
  match f.fails .attrsTmp with
  | some e => .permanentErr e s
  | none =>
  match s.lookupObj tmpName with
  | none => .permanentErr .objectNotExist s
  | some pattr =>
  match f.fails .runCompose with
  | some e => .transientErr e s
  | none =>
  match s.composeIfGenMatch destName [tmpName, destName] attr.generation pattr.contentEncoding with
  | .error e => .transientErr e s
  | .ok s1 =>
  match f.fails .deleteTmp with
  | some e => .permanentErr e s1
  | none => .ok (s1.removeObj tmpName)

/-- How `backoff.Retry` reacts to one run of the operation (modelled from
the backoff collaborator): stop at once on success or on a
`backoff.Permanent` error, otherwise schedule a retry subject to the
remaining budget. -/
inductive RetryStep
  | finished
  | giveUpPermanent (e : StoreErr)
  | retryAfterBackoff (e : StoreErr)
deriving DecidableEq, Repr

def classifyForRetry : ComposeResult → RetryStep
  | .ok _ => .finished
  | .permanentErr e _ => .giveUpPermanent e
  | .transientErr e _ => .retryAfterBackoff e

/-! ### Backoff policy and `Append` (gs.go 29-89) -/

def nsPerSecond : Nat := 1000000000

def nsPerMinute : Nat := 60 * nsPerSecond

/-- The duration fields of a `backoff.ExponentialBackOff` policy, in
nanoseconds (the jitter and multiplier fields play no role in any claim
and are omitted). -/
structure ExponentialBackOff where
  initialInterval : Nat
  maxInterval : Nat
  maxElapsedTime : Nat
deriving DecidableEq, Repr

/-- Modelled from the backoff collaborator: `backoff.NewExponentialBackOff()`
returns the library defaults — InitialInterval 500ms, MaxInterval 60s,
MaxElapsedTime 15 minutes. -/
def NewExponentialBackOff : ExponentialBackOff :=
  { initialInterval := 500000000
    maxInterval := 60 * nsPerSecond
    maxElapsedTime := 15 * nsPerMinute }

/-- Modelled from the backoff collaborator: `NextBackOff` returns `Stop`
(ending the retrying) exactly when the elapsed time exceeds the policy's
MaxElapsedTime (a zero MaxElapsedTime never stops). -/
def stopsRetrying (b : ExponentialBackOff) (elapsed : Nat) : Bool :=
  b.maxElapsedTime ≠ 0 && elapsed > b.maxElapsedTime

/-- The `Appender` configuration (gs.go 30-33); `MaxBackoff` in nanoseconds. -/
structure Appender where
  MaxBackoff : Nat
  Gzip : Bool
deriving DecidableEq, Repr

/-- gs.go 44-47: the configured MaxBackoff, or ten minutes when zero. -/
def effectiveMaxBackoff (a : Appender) : Nat :=
  if a.MaxBackoff = 0 then 10 * nsPerMinute else a.MaxBackoff

/-- The `bckoff` policy built and configured at gs.go 79-80 — and then never
passed to `backoff.Retry`. -/
def appendConfiguredBackoff (a : Appender) : ExponentialBackOff :=
  { NewExponentialBackOff with maxElapsedTime := effectiveMaxBackoff a }

/-- The policy actually passed to `backoff.Retry` at gs.go 88: a fresh
`backoff.NewExponentialBackOff()` carrying the library defaults. -/
def appendRetryPolicy (_ : Appender) : ExponentialBackOff := NewExponentialBackOff

/-- Modelled external collaborator (compress/gzip): a lossless encoder.  The
stand-in prepends the two gzip magic bytes; the only property of the codec
this development relies on is that `gzipDecode` inverts `gzipEncode`. -/
def gzipEncode (data : List Nat) : List Nat := 31 :: 139 :: data

def gzipDecode : List Nat → Option (List Nat)
  | 31 :: 139 :: rest => some rest
  | _ => none

/-- `compress` (gs.go 110-124): pass the payload through unchanged when gzip
is disabled, else gzip-encode it in memory (writing to an in-memory buffer
cannot fail, so the error branch of the source is unreachable here). -/
def compress (data : List Nat) (gz : Bool) : Except String (List Nat) :=
  if !gz then .ok data else .ok (gzipEncode data)

/-- `objects` (gs.go 91-108): derive the temporary and the destination
object names from the locator; `nanos` stands for
`time.Now().Nanosecond()`.  Returns (bucket, temporary name, destination
name). -/
def objects (url : String) (gz : Bool) (nanos : Nat) :
    Except String (String × String × String) :=
  match BucketPrefixObject url with
  | .error e => .error e
  | .ok (bkt, pfx, name) =>
    let path := goJoin [pfx, name]
    let tmpPath := path ++ "." ++ natToStr nanos
    if gz then .ok (bkt, tmpPath ++ ".gz", path ++ ".gz")
    else .ok (bkt, tmpPath, path)

/-- The store operations `Append` issues before the retry loop, recorded as
a trace. -/
inductive Op
  | writeOp (name : String)
  | attrsOp (name : String)
  | createEmpty (name : String)
  | composeOp (dest : String) (srcs : List String)
  | deleteOp (name : String)
deriving DecidableEq, Repr

def isComposeOp : Op → Bool
  | .composeOp _ _ => true
  | _ => false

/-- `writeToObj` (gs.go 126-137): write the payload in full through a new
writer; the writer's ContentEncoding field is never set. -/
def writeToObj (s : GCS) (name : String) (data : List Nat) : GCS :=
  s.writeObj name data

/-- Outcome of `Append` up to the `backoff.Retry` call: an early error, a
nil-handle dereference, or loop entry (carrying the store, the trace of
store operations so far, the two object names and the retry policy handed
to `backoff.Retry`). -/
inductive AppendResult
  | ok (s : GCS) (tr : List Op)
  | err (msg : String) (s : GCS) (tr : List Op)
  | nilPanic (s : GCS) (tr : List Op)
  | reachedLoop (s : GCS) (tr : List Op) (destName tmpName : String) (pol : ExponentialBackOff)
deriving DecidableEq, Repr

def isReachedLoop : AppendResult → Bool
  | .reachedLoop _ _ _ _ _ => true
  | _ => false

/-- `Appender.Append` (gs.go 43-89) up to the `backoff.Retry` call.
`ctxDeadline` is the caller context's deadline — `none` when the context
carries no deadline, in which case `ctx.Deadline()` yields the zero time,
modelled as instant 0; `now` is the clock reading at the pre-loop deadline
check; `nanos` feeds the temporary-name derivation.  The error returned by
`objects` is discarded exactly as in the source (line 58, shadowed at line
60): on a locator that fails to parse the nil handles are used anyway and
the first write dereferences them (`nilPanic`).  The pre-loop store calls
(the temporary write and the existence probe) are modelled as succeeding:
their failure paths return the store's error early in the source and no
claim is about them; fault injection lives in `compose`. -/
def Appender.Append (a : Appender) (ctxDeadline : Option Nat) (now : Nat)
    (data : List Nat) (url : String) (nanos : Nat) (s : GCS) : AppendResult :=
  match compress data a.Gzip with
  | .error e => .err e s []
  | .ok cdata =>
  match objects url a.Gzip nanos with
  | .error _ => .nilPanic s []
  | .ok (_, tmpName, destName) =>
    let s1 := writeToObj s tmpName cdata
    let tr1 := [Op.writeOp tmpName]
    let (s2, tr2) :=
      match s1.lookupObj destName with
      | some _ => (s1, tr1 ++ [Op.attrsOp destName])
      | none => (s1.writeObj destName [], tr1 ++ [Op.attrsOp destName, Op.createEmpty destName])
    if ctxDeadline.getD 0 < now then .err "context has timed out" s2 tr2
    else .reachedLoop s2 tr2 destName tmpName NewExponentialBackOff

/-! ### Dates and the listing filter (gs.go 24-27, 229-299) -/

/-- A calendar date, as produced by `time.Parse` with layout `20060102`. -/
structure GoDate where
  year : Nat
  month : Nat
  day : Nat
deriving DecidableEq, Repr

/-- A clock instant: a calendar date plus nanoseconds into that day (all
instants are taken in one fixed location, as in the package's tests). -/
structure GoDateTime where
  date : GoDate
  nanosOfDay : Nat
deriving DecidableEq, Repr

/-- Strict order on dates; `Before`/`After` on midnight instants of the
same location coincide with it. -/
def GoDate.lt (a b : GoDate) : Bool :=
  if a.year ≠ b.year then decide (a.year < b.year)
  else if a.month ≠ b.month then decide (a.month < b.month)
  else decide (a.day < b.day)

def chDigit (c : Char) : Option Nat :=
  if '0' ≤ c ∧ c ≤ '9' then some (c.toNat - '0'.toNat) else none

def isDigitCh (c : Char) : Bool := decide ('0' ≤ c) && decide (c ≤ '9')

/-- Go `time`: leap-year rule. -/
def isLeapYear (y : Nat) : Bool := y % 4 = 0 && (y % 100 ≠ 0 || y % 400 = 0)

def daysInMonth (y m : Nat) : Nat :=
  if m = 2 then (if isLeapYear y then 29 else 28)
  else if m = 4 ∨ m = 6 ∨ m = 9 ∨ m = 11 then 30
  else 31

/-- `time.Parse` with layout `20060102` (gs.go 26, 286): four year digits,
two month digits, two day digits; month and day must be in range for the
parse to succeed. -/
def parseDate8 (s : List Char) : Option GoDate :=
  match s with
  | [y1, y2, y3, y4, m1, m2, d1, d2] => do
    let a ← chDigit y1
    let b ← chDigit y2
    let c ← chDigit y3
    let d ← chDigit y4
    let mhi ← chDigit m1
    let mlo ← chDigit m2
    let dhi ← chDigit d1
    let dlo ← chDigit d2
    let y := 1000 * a + 100 * b + 10 * c + d
    let mo := 10 * mhi + mlo
    let da := 10 * dhi + dlo
    if 1 ≤ mo ∧ mo ≤ 12 ∧ 1 ≤ da ∧ da ≤ daysInMonth y mo then some ⟨y, mo, da⟩
    else none
  | _ => none

/-- Go's byte-wise strict string order (UTF-8 bytes compare exactly like
code points), on character lists. -/
def charsLt : List Char → List Char → Bool
  | [], [] => false
  | [], _ :: _ => true
  | _ :: _, [] => false
  | a :: as, b :: bs =>
    if a.toNat < b.toNat then true
    else if b.toNat < a.toNat then false
    else charsLt as bs

/-- Go's `s1 <= s2` on strings, used by `sort.Strings`. -/
def goStrLe (a b : String) : Bool := !(charsLt b.data a.data)

def goStrLeRel (a b : String) : Prop := goStrLe a b = true

instance : DecidableRel goStrLeRel := fun _ _ => instDecidableEqBool _ _

/-- `sort.Strings` (gs.go 296): sort the collected names into Go string
order; since equal strings are identical, the sorted permutation is unique
and any sorting algorithm models the library call. -/
def sortStrings (l : List String) : List String := List.insertionSort goStrLeRel l

/-- The name filter of the listing loop (gs.go 281-293) as a predicate:
the matcher returned a full match plus one capture, the capture parses as a
date, and that date satisfies `cmp` against the truncated cutoff. -/
def keepObj (matchFn : String → List String) (dt0 : GoDate)
    (cmp : GoDate → GoDate → Bool) (o : String) : Bool :=
  decide ((matchFn o).length = 2) &&
    (match parseDate8 ((matchFn o).getD 1 "").data with
     | some d => cmp d dt0
     | none => false)

/-- The iteration of `filterObjects` over the listing (gs.go 272-294):
skip names without exactly one capture, abort on a date that fails to
parse, collect the names whose date satisfies `cmp`. -/
def collectObjs (matchFn : String → List String) (dt0 : GoDate)
    (cmp : GoDate → GoDate → Bool) : List String → Except String (List String)
  | [] => .ok []
  | o :: rest =>
    if (matchFn o).length = 2 then
      match parseDate8 ((matchFn o).getD 1 "").data with
      | none => .error "cannot parse date"
      | some d =>
        match collectObjs matchFn dt0 cmp rest with
        | .error e => .error e
        | .ok acc => .ok (if cmp d dt0 then o :: acc else acc)
    else collectObjs matchFn dt0 cmp rest

/-- `filterObjects` (gs.go 253-299), given the listing the store iterator
returns for the bucket and prefix and the compiled pattern as `matchFn`
(modelling `matcher.FindStringSubmatch`): truncate the cutoff to midnight
of its day, filter the listing, and sort the survivors. -/
def filterObjects (listing : List String) (matchFn : String → List String)
    (dt : GoDateTime) (cmp : GoDate → GoDate → Bool) : Except String (List String) :=
  match collectObjs matchFn dt.date cmp listing with
  | .error e => .error e
  | .ok acc => .ok (sortStrings acc)

/-- `ObjectsSince` keeps dates on or after the cutoff (gs.go 233-239). -/
def cmpSince (d dt : GoDate) : Bool := GoDate.lt dt d || decide (d = dt)

/-- `ObjectsBefore` keeps dates strictly before the cutoff (gs.go 245-251). -/
def cmpBefore (d dt : GoDate) : Bool := GoDate.lt d dt

def ObjectsSince (listing : List String) (matchFn : String → List String)
    (dt : GoDateTime) : Except String (List String) :=
  filterObjects listing matchFn dt cmpSince

def ObjectsBefore (listing : List String) (matchFn : String → List String)
    (dt : GoDateTime) : Except String (List String) :=
  filterObjects listing matchFn dt cmpBefore

/-- One anchored attempt of the pattern `obj_(\d{8}).txt`: literal `obj_`,
eight digits (the capture), one arbitrary character, literal `txt`.
Returns (full match, capture). -/
def tryObjMatch (l : List Char) : Option (List Char × List Char) :=
  match l with
  | 'o' :: 'b' :: 'j' :: '_' :: d1 :: d2 :: d3 :: d4 :: d5 :: d6 :: d7 :: d8 ::
      dot :: 't' :: 'x' :: 't' :: _ =>
    if [d1, d2, d3, d4, d5, d6, d7, d8].all isDigitCh then
      some (['o', 'b', 'j', '_', d1, d2, d3, d4, d5, d6, d7, d8, dot, 't', 'x', 't'],
            [d1, d2, d3, d4, d5, d6, d7, d8])
    else none
  | _ => none

/-- Modelled regexp collaborator: `FindStringSubmatch` for the spec's
pattern `obj_(\d{8}).txt` — leftmost match, returned as
`[full match, capture]`, or `[]` when the pattern does not occur. -/
def objFind (l : List Char) : List String :=
  match tryObjMatch l with
  | some (full, cap) => [chStr full, chStr cap]
  | none =>
    match l with
    | [] => []
    | _ :: rest => objFind rest

def objMatcher (s : String) : List String := objFind s.data

/-- The listing of the spec's listing-filter example. -/
def exampleListing : List String :=
  ["obj_20170103.txt", "obj_20170102.txt", "obj_20170101.txt", "obj_20170104.txt"]

/-! ### Order facts about the Go string comparison -/

theorem charsLt_asymm : ∀ as bs, charsLt as bs = true → charsLt bs as = false := by
  intro as
  induction as with
  | nil =>
    intro bs h
    cases bs with
    | nil => simp [charsLt] at h
    | cons b bs2 => simp [charsLt]
  | cons a as2 ih =>
    intro bs h
    cases bs with
    | nil => simp [charsLt] at h
    | cons b bs2 =>
      simp only [charsLt] at h ⊢
      by_cases hab : a.toNat < b.toNat
      · rw [if_neg (by omega), if_pos hab]
      · by_cases hba : b.toNat < a.toNat
        · rw [if_neg hab, if_pos hba] at h
          simp at h
        · rw [if_neg hab, if_neg hba] at h
          rw [if_neg hba, if_neg hab]
          exact ih bs2 h

theorem charsLt_connected : ∀ cs as bs, charsLt cs as = true →
    charsLt cs bs = true ∨ charsLt bs as = true := by
  intro cs
  induction cs with
  | nil =>
    intro as bs h
    cases as with
    | nil => simp [charsLt] at h
    | cons a as2 =>
      cases bs with
      | nil => right; simp [charsLt]
      | cons b bs2 => left; simp [charsLt]
  | cons c cs2 ih =>
    intro as bs h
    cases as with
    | nil => simp [charsLt] at h
    | cons a as2 =>
      cases bs with
      | nil => right; simp [charsLt]
      | cons b bs2 =>
        simp only [charsLt] at h ⊢
        by_cases hcb : c.toNat < b.toNat
        · left; rw [if_pos hcb]
        · by_cases hba : b.toNat < a.toNat
          · right; rw [if_pos hba]
          · by_cases hca : c.toNat < a.toNat
            · exact absurd hca (by omega)
            · rw [if_neg hca] at h
              by_cases hac : a.toNat < c.toNat
              · rw [if_pos hac] at h; simp at h
              · rw [if_neg hac] at h
                rcases ih as2 bs2 h with h1 | h1
                · left
                  rw [if_neg hcb, if_neg (show ¬ b.toNat < c.toNat by omega)]
                  exact h1
                · right
                  rw [if_neg hba, if_neg (show ¬ a.toNat < b.toNat by omega)]
                  exact h1

instance : IsTotal String goStrLeRel := by
  constructor
  intro a b
  unfold goStrLeRel goStrLe
  by_cases h : charsLt b.data a.data = true
  · right
    rw [charsLt_asymm _ _ h]
    rfl
  · left
    rw [Bool.not_eq_true] at h
    rw [h]
    rfl

instance : IsTrans String goStrLeRel := by
  constructor
  intro a b c hab hbc
  unfold goStrLeRel goStrLe at hab hbc ⊢
  rw [Bool.not_eq_true'] at hab hbc ⊢
  by_cases h : charsLt c.data a.data = true
  · rcases charsLt_connected _ _ b.data h with h1 | h1
    · rw [hbc] at h1; simp at h1
    · rw [hab] at h1; simp at h1
  · rwa [Bool.not_eq_true] at h

/-! ### Correctness of the listing iteration -/

theorem collectObjs_eq_filter (matchFn : String → List String) (dt0 : GoDate)
    (cmp : GoDate → GoDate → Bool) :
    ∀ l : List String,
      (∀ o ∈ l, (matchFn o).length = 2 →
        (parseDate8 ((matchFn o).getD 1 "").data).isSome = true) →
      collectObjs matchFn dt0 cmp l = .ok (l.filter (keepObj matchFn dt0 cmp)) := by
  intro l
  induction l with
  | nil => intro _; rfl
  | cons o rest ih =>
    intro H
    have Hrest : ∀ o ∈ rest, (matchFn o).length = 2 →
        (parseDate8 ((matchFn o).getD 1 "").data).isSome = true :=
      fun o ho h2 => H o (List.mem_cons_of_mem _ ho) h2
    by_cases hm : (matchFn o).length = 2
    · obtain ⟨d, hd⟩ := Option.isSome_iff_exists.mp (H o (List.mem_cons_self _ _) hm)
      have hk : keepObj matchFn dt0 cmp o = cmp d dt0 := by
        unfold keepObj
        rw [hd]
        simp [hm]
      simp only [collectObjs, if_pos hm, hd, ih Hrest, List.filter_cons, hk]
    · have hk : keepObj matchFn dt0 cmp o = false := by
        unfold keepObj
        simp [hm]
      simp only [collectObjs, if_neg hm, ih Hrest, List.filter_cons, hk]
      simp

theorem keepObj_iff (matchFn : String → List String) (dt0 : GoDate)
    (cmp : GoDate → GoDate → Bool) (o : String) :
    keepObj matchFn dt0 cmp o = true ↔
    ∃ d, (matchFn o).length = 2
      ∧ parseDate8 ((matchFn o).getD 1 "").data = some d
      ∧ cmp d dt0 = true := by
  unfold keepObj
  cases hp : parseDate8 ((matchFn o).getD 1 "").data with
  | none => simp
  | some d => simp [And.comm]

/-! ### Claim theorems -/

/-- C10: for every listing whose matched names carry parseable captured
dates, `ObjectsSince` returns exactly the listed names whose date is on or
after the cutoff truncated to midnight of its day and `ObjectsBefore`
exactly those strictly before it, both sorted in Go string order
(lexicographic, hence chronological for the fixed-width zero-padded
dates); the spec's four-object example evaluates to exactly the stated
outputs in that order. -/
theorem ObjectsSinceBefore_spec :
    (∀ (listing : List String) (matchFn : String → List String) (dt : GoDateTime),
      (∀ o ∈ listing, (matchFn o).length = 2 →
          (parseDate8 ((matchFn o).getD 1 "").data).isSome = true) →
      ∃ res, ObjectsSince listing matchFn dt = .ok res
        ∧ List.Sorted goStrLeRel res
        ∧ ∀ name, name ∈ res ↔ name ∈ listing ∧ ∃ d,
            (matchFn name).length = 2
            ∧ parseDate8 ((matchFn name).getD 1 "").data = some d
            ∧ (GoDate.lt dt.date d || decide (d = dt.date)) = true)
    ∧ (∀ (listing : List String) (matchFn : String → List String) (dt : GoDateTime),
      (∀ o ∈ listing, (matchFn o).length = 2 →
          (parseDate8 ((matchFn o).getD 1 "").data).isSome = true) →
      ∃ res, ObjectsBefore listing matchFn dt = .ok res
        ∧ List.Sorted goStrLeRel res
        ∧ ∀ name, name ∈ res ↔ name ∈ listing ∧ ∃ d,
            (matchFn name).length = 2
            ∧ parseDate8 ((matchFn name).getD 1 "").data = some d
            ∧ GoDate.lt d dt.date = true)
    ∧ ObjectsBefore exampleListing objMatcher ⟨⟨2017, 1, 3⟩, 0⟩ =
        .ok ["obj_20170101.txt", "obj_20170102.txt"]
    ∧ ObjectsSince exampleListing objMatcher ⟨⟨2017, 1, 2⟩, 0⟩ =
        .ok ["obj_20170102.txt", "obj_20170103.txt", "obj_20170104.txt"] := by
  refine ⟨?_, ?_, by rfl, by rfl⟩
  · intro listing matchFn dt H
    refine ⟨sortStrings (listing.filter (keepObj matchFn dt.date cmpSince)), ?_, ?_, ?_⟩
    · unfold ObjectsSince filterObjects
      rw [collectObjs_eq_filter matchFn dt.date cmpSince listing H]
    · exact List.sorted_insertionSort goStrLeRel _
    · intro name
      simp only [sortStrings, List.mem_insertionSort, List.mem_filter, keepObj_iff, cmpSince]
  · intro listing matchFn dt H
    refine ⟨sortStrings (listing.filter (keepObj matchFn dt.date cmpBefore)), ?_, ?_, ?_⟩
    · unfold ObjectsBefore filterObjects
      rw [collectObjs_eq_filter matchFn dt.date cmpBefore listing H]
    · exact List.sorted_insertionSort goStrLeRel _
    · intro name
      simp only [sortStrings, List.mem_insertionSort, List.mem_filter, keepObj_iff, cmpBefore]

/-- Witness for C10 at the spec's example listing and the since-cutoff
2017-01-02. -/
theorem ObjectsSinceBefore_spec_witness :
    ∃ res, ObjectsSince exampleListing objMatcher ⟨⟨2017, 1, 2⟩, 0⟩ = .ok res
      ∧ List.Sorted goStrLeRel res
      ∧ ∀ name, name ∈ res ↔ name ∈ exampleListing ∧ ∃ d,
          (objMatcher name).length = 2
          ∧ parseDate8 ((objMatcher name).getD 1 "").data = some d
          ∧ (GoDate.lt (GoDateTime.mk ⟨2017, 1, 2⟩ 0).date d
              || decide (d = (GoDateTime.mk ⟨2017, 1, 2⟩ 0).date)) = true :=
  ObjectsSinceBefore_spec.1 exampleListing objMatcher ⟨⟨2017, 1, 2⟩, 0⟩ (by decide)

/-- C1: the `compose` closure issues the store compose as
`ComposerFrom(pobj, obj)`, that is with sources [temporary, destination],
so a successful conditional compose leaves the destination holding
payload ++ pre-content — with pre-content `[1]` and payload `[2]` the
result is `[2, 1]`, not `[1] ++ [2]` as the claim states. -/
theorem compose_prepends_payload :
    compose (GCS.mk [("d", ⟨[1], 7, ""⟩), ("t", ⟨[2], 1, ""⟩)] 8) "d" "t" noFaults =
      .ok (GCS.mk [("d", ⟨[2, 1], 8, ""⟩)] 9)
    ∧ [2, 1] ≠ [1] ++ [2] :=
  ⟨rfl, by decide⟩

/-- C2: on an `Appender` with `MaxBackoff = 0` the effective max backoff is
ten minutes, but the policy actually handed to `backoff.Retry` is a fresh
default whose MaxElapsedTime is fifteen minutes — it differs from the
configured-and-discarded `bckoff` policy, and at a cumulative elapsed time
of twelve minutes (past the claimed ten-minute budget) the retry loop has
not stopped retrying. -/
theorem append_retry_budget_bug :
    effectiveMaxBackoff ⟨0, false⟩ = 600 * nsPerSecond
    ∧ (appendConfiguredBackoff ⟨0, false⟩).maxElapsedTime = 600 * nsPerSecond
    ∧ (appendRetryPolicy ⟨0, false⟩).maxElapsedTime = 900 * nsPerSecond
    ∧ appendRetryPolicy ⟨0, false⟩ ≠ appendConfiguredBackoff ⟨0, false⟩
    ∧ stopsRetrying (appendRetryPolicy ⟨0, false⟩) (720 * nsPerSecond) = false
    ∧ 720 * nsPerSecond > effectiveMaxBackoff ⟨0, false⟩
    ∧ Appender.Append ⟨0, false⟩ (some 100) 10 [1] "gs://b/n" 1 (GCS.mk [] 1) =
        .reachedLoop
          (GCS.mk [("n.1", ⟨[1], 1, ""⟩), ("n", ⟨[], 2, ""⟩)] 3)
          [Op.writeOp "n.1", Op.attrsOp "n", Op.createEmpty "n"]
          "n" "n.1" NewExponentialBackOff :=
  ⟨by decide, by decide, by decide, by decide, by decide, by decide, rfl⟩

/-- C4: on the bucket-only locator `gs://bkt` (which `BucketPrefixObject`
rejects), `Append` does not return the configuration error: the error from
`objects` is discarded and the write to the nil temporary handle
dereferences a nil pointer.  The store is indeed untouched, but the caller
gets a crash, not an immediately-reported error. -/
theorem append_bad_url_crashes :
    Appender.Append ⟨0, false⟩ (some 100) 10 [1] "gs://bkt" 5 (GCS.mk [] 1) =
      .nilPanic (GCS.mk [] 1) []
    ∧ BucketPrefixObject "gs://bkt" = .error "path does not have bucket and object" :=
  ⟨rfl, rfl⟩

/-! ### Pre-loop behaviour of `Append` -/

theorem compress_eq (data : List Nat) (gz : Bool) :
    compress data gz = .ok (if gz then gzipEncode data else data) := by
  cases gz <;> rfl

theorem append_err_of_deadline_lt
    (a : Appender) (data : List Nat) (url : String) (nanos : Nat) (s : GCS)
    (ctxDeadline : Option Nat) (now : Nat) (bkt tmpName destName : String)
    (hobj : objects url a.Gzip nanos = .ok (bkt, tmpName, destName))
    (h : ctxDeadline.getD 0 < now) :
    ∃ s2 tr, Appender.Append a ctxDeadline now data url nanos s =
        .err "context has timed out" s2 tr
      ∧ tr.all (fun o => !(isComposeOp o)) = true := by
  simp only [Appender.Append, compress_eq, hobj]
  cases hl : (writeToObj s tmpName (if a.Gzip then gzipEncode data else data)).lookupObj destName
  · simp only [hl, if_pos h]
    exact ⟨_, _, rfl, rfl⟩
  · simp only [hl, if_pos h]
    exact ⟨_, _, rfl, rfl⟩

theorem append_reached_iff
    (a : Appender) (data : List Nat) (url : String) (nanos : Nat) (s : GCS)
    (ctxDeadline : Option Nat) (now : Nat) (bkt tmpName destName : String)
    (hobj : objects url a.Gzip nanos = .ok (bkt, tmpName, destName)) :
    isReachedLoop (Appender.Append a ctxDeadline now data url nanos s) = true ↔
      ¬ (ctxDeadline.getD 0 < now) := by
  simp only [Appender.Append, compress_eq, hobj]
  cases hl : (writeToObj s tmpName (if a.Gzip then gzipEncode data else data)).lookupObj destName <;>
    by_cases h : ctxDeadline.getD 0 < now <;>
      simp [hl, h, isReachedLoop]

/-- C6: when the caller's deadline is already strictly past at the pre-loop
check, `Append` returns the timeout error and the trace of store operations
contains no compose call. -/
theorem append_deadline_elapsed_no_compose
    (a : Appender) (data : List Nat) (url : String) (nanos : Nat) (s : GCS)
    (d now : Nat) (bkt tmpName destName : String)
    (hobj : objects url a.Gzip nanos = .ok (bkt, tmpName, destName))
    (hd : d < now) :
    ∃ s2 tr, Appender.Append a (some d) now data url nanos s =
        .err "context has timed out" s2 tr
      ∧ tr.all (fun o => !(isComposeOp o)) = true :=
  append_err_of_deadline_lt a data url nanos s (some d) now bkt tmpName destName hobj
    (by simpa using hd)

/-- Witness for C6: deadline 1, clock 2, well-formed locator. -/
theorem append_deadline_elapsed_no_compose_witness :
    ∃ s2 tr, Appender.Append ⟨0, false⟩ (some 1) 2 [1] "gs://b/n" 1 (GCS.mk [] 1) =
        .err "context has timed out" s2 tr
      ∧ tr.all (fun o => !(isComposeOp o)) = true :=
  append_deadline_elapsed_no_compose ⟨0, false⟩ [1] "gs://b/n" 1 (GCS.mk [] 1) 1 2
    "b" "n.1" "n" rfl (by decide)

/-- C5 counterexample: a context whose deadline equals the clock reading at
the check — a deadline that does not lie in the future — still reaches the
compose loop, because the source's check `d.Before(time.Now())` is strict. -/
theorem append_deadline_at_now_reaches_loop :
    isReachedLoop (Appender.Append ⟨0, false⟩ (some 5) 5 [1] "gs://b/n" 1 (GCS.mk [] 1)) = true
    ∧ ¬ (5 < 5) :=
  ⟨rfl, by decide⟩

/-- C5 (amended): a context with no deadline yields the zero-valued
deadline, which compares before any positive clock reading, so `Append`
returns the error `context has timed out` before entering the retry loop;
and the compose loop is reached only when the supplied deadline is not
strictly before the clock reading at the check (at or after it). -/
theorem append_no_deadline_times_out
    (a : Appender) (data : List Nat) (url : String) (nanos : Nat) (s : GCS)
    (now : Nat) (bkt tmpName destName : String)
    (hobj : objects url a.Gzip nanos = .ok (bkt, tmpName, destName))
    (hnow : 1 ≤ now) :
    (∃ s2 tr, Appender.Append a none now data url nanos s =
        .err "context has timed out" s2 tr)
    ∧ ∀ dd : Nat, isReachedLoop (Appender.Append a (some dd) now data url nanos s) = true →
        now ≤ dd := by
  constructor
  · obtain ⟨s2, tr, he, _⟩ :=
      append_err_of_deadline_lt a data url nanos s none now bkt tmpName destName hobj
        (by simpa using hnow)
    exact ⟨s2, tr, he⟩
  · intro dd hreach
    have hnot :=
      (append_reached_iff a data url nanos s (some dd) now bkt tmpName destName hobj).mp hreach
    exact Nat.le_of_not_lt (by simpa using hnot)

/-- Witness for C5 (amended) at clock reading 2 and a well-formed locator. -/
theorem append_no_deadline_times_out_witness :
    (∃ s2 tr, Appender.Append ⟨0, false⟩ none 2 [1] "gs://b/n" 1 (GCS.mk [] 1) =
        .err "context has timed out" s2 tr)
    ∧ ∀ dd : Nat,
        isReachedLoop (Appender.Append ⟨0, false⟩ (some dd) 2 [1] "gs://b/n" 1 (GCS.mk [] 1)) =
          true → 2 ≤ dd :=
  append_no_deadline_times_out ⟨0, false⟩ [1] "gs://b/n" 1 (GCS.mk [] 1) 2
    "b" "n.1" "n" rfl (by decide)

/-! ### Classification of errors inside the compose closure -/

/-- Faults injecting a transport error at `composer.Run` only. -/
def runFaults : Faults :=
  ⟨fun c => if c = CallSite.runCompose then some (.transport "boom") else none⟩

/-- C3 counterexample: a failure of the compose operation itself that is
not a generation mismatch (a transport error injected at `composer.Run`)
is returned unwrapped, so `backoff.Retry` schedules a retry — the loop
does not abort it as terminal. -/
theorem compose_run_error_is_retried :
    classifyForRetry
        (compose (GCS.mk [("d", ⟨[1], 7, ""⟩), ("t", ⟨[2], 1, ""⟩)] 8) "d" "t" runFaults) =
      .retryAfterBackoff (.transport "boom") := rfl

/-- C3 (amended): inside the compose retry loop, a failure reading the
destination's or the temporary's attributes is wrapped `backoff.Permanent`
and aborts the loop, while every failure of the compose operation itself —
generation mismatch or any other store error — is returned unwrapped and
is retried. -/
theorem compose_error_classification :
    (∀ (s : GCS) (destName tmpName : String) (f : Faults) (e : StoreErr),
        f.fails .attrsDest = some e →
        compose s destName tmpName f = .permanentErr e s
        ∧ classifyForRetry (compose s destName tmpName f) = .giveUpPermanent e)
    ∧ (∀ (s : GCS) (destName tmpName : String) (f : Faults) (e : StoreErr) (aD : ObjState),
        f.fails .attrsDest = none → s.lookupObj destName = some aD →
        f.fails .attrsTmp = some e →
        compose s destName tmpName f = .permanentErr e s
        ∧ classifyForRetry (compose s destName tmpName f) = .giveUpPermanent e)
    ∧ (∀ (s : GCS) (destName tmpName : String) (f : Faults) (e : StoreErr) (aD aT : ObjState),
        f.fails .attrsDest = none → s.lookupObj destName = some aD →
        f.fails .attrsTmp = none → s.lookupObj tmpName = some aT →
        f.fails .runCompose = some e →
        compose s destName tmpName f = .transientErr e s
        ∧ classifyForRetry (compose s destName tmpName f) = .retryAfterBackoff e) := by
  refine ⟨?_, ?_, ?_⟩
  · intro s destName tmpName f e h
    unfold compose
    rw [h]
    exact ⟨rfl, rfl⟩
  · intro s destName tmpName f e aD hfa hD hft
    unfold compose
    rw [hfa, hD, hft]
    exact ⟨rfl, rfl⟩
  · intro s destName tmpName f e aD aT hfa hD hft hT hfr
    unfold compose
    rw [hfa, hD, hft, hT, hfr]
    exact ⟨rfl, rfl⟩

/-- Witness for C3 (amended): an attribute-read fault on the destination is
classified terminal at a concrete store. -/
theorem compose_error_classification_witness :
    compose (GCS.mk [("d", ⟨[1], 7, ""⟩), ("t", ⟨[2], 1, ""⟩)] 8) "d" "t"
        ⟨fun c => if c = CallSite.attrsDest then some (.transport "x") else none⟩ =
      .permanentErr (.transport "x") (GCS.mk [("d", ⟨[1], 7, ""⟩), ("t", ⟨[2], 1, ""⟩)] 8)
    ∧ classifyForRetry
        (compose (GCS.mk [("d", ⟨[1], 7, ""⟩), ("t", ⟨[2], 1, ""⟩)] 8) "d" "t"
          ⟨fun c => if c = CallSite.attrsDest then some (.transport "x") else none⟩) =
      .giveUpPermanent (.transport "x") :=
  compose_error_classification.1 (GCS.mk [("d", ⟨[1], 7, ""⟩), ("t", ⟨[2], 1, ""⟩)] 8)
    "d" "t" ⟨fun c => if c = CallSite.attrsDest then some (.transport "x") else none⟩
    (.transport "x") rfl

/-! ### Behaviour after a successful compose -/

theorem find?_setList (l : List (String × ObjState)) (n : String) (st : ObjState) :
    ((l.filter (fun p => p.1 ≠ n)) ++ [(n, st)]).find? (fun p => p.1 = n) = some (n, st) := by
  induction l with
  | nil =>
    rw [List.filter_nil, List.nil_append, List.find?_cons_of_pos _ (by simp)]
  | cons p l ih =>
    by_cases hp : p.1 = n
    · rw [List.filter_cons_of_neg (by simp [hp]), ih]
    · rw [List.filter_cons_of_pos (by simp [hp]), List.cons_append,
        List.find?_cons_of_neg _ (by simp [hp]), ih]

theorem find?_filterNe_self (l : List (String × ObjState)) (n : String) :
    (l.filter (fun p => p.1 ≠ n)).find? (fun p => p.1 = n) = none := by
  induction l with
  | nil => rfl
  | cons p l ih =>
    by_cases hp : p.1 = n
    · rw [List.filter_cons_of_neg (by simp [hp]), ih]
    · rw [List.filter_cons_of_pos (by simp [hp]), List.find?_cons_of_neg _ (by simp [hp]), ih]

theorem find?_filterNe_other (l : List (String × ObjState)) (n m : String) (h : m ≠ n) :
    (l.filter (fun p => p.1 ≠ n)).find? (fun p => p.1 = m) = l.find? (fun p => p.1 = m) := by
  induction l with
  | nil => rfl
  | cons p l ih =>
    by_cases hp : p.1 = n
    · have hpm : ¬ p.1 = m := by rw [hp]; exact fun hm => h hm.symm
      rw [List.filter_cons_of_neg (by simp [hp]), ih, List.find?_cons_of_neg _ (by simp [hpm])]
    · rw [List.filter_cons_of_pos (by simp [hp])]
      by_cases hm : p.1 = m
      · rw [List.find?_cons_of_pos _ (by simp [hm]), List.find?_cons_of_pos _ (by simp [hm])]
      · rw [List.find?_cons_of_neg _ (by simp [hm]), ih, List.find?_cons_of_neg _ (by simp [hm])]

/-- C8: when `composer.Run` succeeds, the temporary object is deleted and
the closure returns success; when the post-success delete fails the error
is wrapped `backoff.Permanent` — terminal, never retried, surfaced to the
caller — even though the store state it carries already shows the
destination mutation applied (the append's data effect is durable). -/
theorem compose_delete_behaviour
    (s : GCS) (destName tmpName : String) (f : Faults) (aD aT : ObjState) (e : StoreErr)
    (hfa : f.fails .attrsDest = none) (hft : f.fails .attrsTmp = none)
    (hfr : f.fails .runCompose = none)
    (hD : s.lookupObj destName = some aD) (hT : s.lookupObj tmpName = some aT)
    (hne : tmpName ≠ destName) :
    (f.fails .deleteTmp = some e →
      ∃ s1, compose s destName tmpName f = .permanentErr e s1
        ∧ s1.lookupObj destName =
            some ⟨aT.content ++ aD.content, s.nextGen, aT.contentEncoding⟩
        ∧ classifyForRetry (compose s destName tmpName f) = .giveUpPermanent e)
    ∧ (f.fails .deleteTmp = none →
      ∃ s2, compose s destName tmpName f = .ok s2
        ∧ s2.lookupObj tmpName = none
        ∧ s2.lookupObj destName =
            some ⟨aT.content ++ aD.content, s.nextGen, aT.contentEncoding⟩) := by
  have hcomp : s.composeIfGenMatch destName [tmpName, destName] aD.generation aT.contentEncoding
      = .ok (GCS.mk
          (s.setObj destName ⟨aT.content ++ aD.content, s.nextGen, aT.contentEncoding⟩).objs
          (s.nextGen + 1)) := by
    have hmap : s.sourceContents [tmpName, destName] = some [aT.content, aD.content] := by
      simp [GCS.sourceContents, hT, hD]
    unfold GCS.composeIfGenMatch
    simp only [hD, hmap, if_neg (show ¬ aD.generation ≠ aD.generation by simp)]
    simp
  unfold compose
  simp only [hfa, hD, hft, hT, hfr, hcomp]
  constructor
  · intro hdel
    simp only [hdel]
    refine ⟨_, rfl, ?_, rfl⟩
    simp only [GCS.lookupObj, GCS.setObj, find?_setList, Option.map_some']
  · intro hdel
    simp only [hdel]
    refine ⟨_, rfl, ?_, ?_⟩
    · simp only [GCS.removeObj, GCS.lookupObj, GCS.setObj, find?_filterNe_self, Option.map_none']
    · simp only [GCS.removeObj, GCS.lookupObj, GCS.setObj,
        find?_filterNe_other _ _ _ (fun hdt => hne hdt.symm), find?_setList, Option.map_some']

/-- Witness for C8 at a concrete two-object store with no faults. -/
theorem compose_delete_behaviour_witness :
    ∃ s2, compose (GCS.mk [("d", ⟨[1], 7, ""⟩), ("t", ⟨[2], 1, ""⟩)] 8) "d" "t" noFaults =
        .ok s2
      ∧ s2.lookupObj "t" = none
      ∧ s2.lookupObj "d" = some ⟨[2] ++ [1], 8, ""⟩ :=
  (compose_delete_behaviour (GCS.mk [("d", ⟨[1], 7, ""⟩), ("t", ⟨[2], 1, ""⟩)] 8)
      "d" "t" noFaults ⟨[1], 7, ""⟩ ⟨[2], 1, ""⟩ .precondFailed
      rfl rfl rfl rfl rfl (by decide)).2 rfl

/-- C7: with gzip enabled, both physical names carry the `.gz` suffix and
gzip-decoding the in-memory-compressed payload reproduces it exactly; but
the composed destination's content-encoding is the empty string, not a
value reflecting compression — `writeToObj` never sets ContentEncoding on
the temporary's writer, and `compose` propagates that empty value. -/
theorem append_gzip_pipeline :
    Appender.Append ⟨0, true⟩ (some 100) 10 [7] "gs://bkt/pf/name" 5 (GCS.mk [] 1) =
      .reachedLoop
        (GCS.mk [("pf/name.5.gz", ⟨[31, 139, 7], 1, ""⟩), ("pf/name.gz", ⟨[], 2, ""⟩)] 3)
        [Op.writeOp "pf/name.5.gz", Op.attrsOp "pf/name.gz", Op.createEmpty "pf/name.gz"]
        "pf/name.gz" "pf/name.5.gz" NewExponentialBackOff
    ∧ compose (GCS.mk [("pf/name.5.gz", ⟨[31, 139, 7], 1, ""⟩), ("pf/name.gz", ⟨[], 2, ""⟩)] 3)
        "pf/name.gz" "pf/name.5.gz" noFaults =
      .ok (GCS.mk [("pf/name.gz", ⟨[31, 139, 7], 3, ""⟩)] 4)
    ∧ ("pf/name.gz" = "pf/name" ++ ".gz" ∧ "pf/name.5.gz" = "pf/name.5" ++ ".gz")
    ∧ ("" : String) ≠ "gzip"
    ∧ (∀ payload : List Nat, gzipDecode (gzipEncode payload) = some payload) :=
  ⟨rfl, rfl, ⟨rfl, rfl⟩, by decide, fun _ => rfl⟩
